import Mathlib

/-!
# go-s3-encryption: envelope encryption and mode routing

A shallow embedding of `crypto.go` and of the mode-dependent branches of
`handlers.go`, together with the parts of the Go standard library they call.

Conventions.
* A Go `[]byte` is a `List UInt8`; a Go `string` is a Lean `String`.
* A Go `error` is its message (`err.Error()`); `Except String α` is a Go result pair
  `(α, error)`.
* The package-level variable `customerKey`, the environment and the random source are
  passed explicitly.
-/

deriving instance DecidableEq for Except

/-- A Go byte slice. -/
abbrev Bytes := List UInt8

/-! ## Model of `crypto/aes` (FIPS-197)

The cipher state is a list of 16 byte values in input order (column-major). -/

namespace aes

/-- The AES S-box (FIPS-197, figure 7), row by row. -/
def sboxTable : List Nat := [
  0x63, 0x7c, 0x77, 0x7b, 0xf2, 0x6b, 0x6f, 0xc5, 0x30, 0x01, 0x67, 0x2b, 0xfe, 0xd7, 0xab, 0x76,
  0xca, 0x82, 0xc9, 0x7d, 0xfa, 0x59, 0x47, 0xf0, 0xad, 0xd4, 0xa2, 0xaf, 0x9c, 0xa4, 0x72, 0xc0,
  0xb7, 0xfd, 0x93, 0x26, 0x36, 0x3f, 0xf7, 0xcc, 0x34, 0xa5, 0xe5, 0xf1, 0x71, 0xd8, 0x31, 0x15,
  0x04, 0xc7, 0x23, 0xc3, 0x18, 0x96, 0x05, 0x9a, 0x07, 0x12, 0x80, 0xe2, 0xeb, 0x27, 0xb2, 0x75,
  0x09, 0x83, 0x2c, 0x1a, 0x1b, 0x6e, 0x5a, 0xa0, 0x52, 0x3b, 0xd6, 0xb3, 0x29, 0xe3, 0x2f, 0x84,
  0x53, 0xd1, 0x00, 0xed, 0x20, 0xfc, 0xb1, 0x5b, 0x6a, 0xcb, 0xbe, 0x39, 0x4a, 0x4c, 0x58, 0xcf,
  0xd0, 0xef, 0xaa, 0xfb, 0x43, 0x4d, 0x33, 0x85, 0x45, 0xf9, 0x02, 0x7f, 0x50, 0x3c, 0x9f, 0xa8,
  0x51, 0xa3, 0x40, 0x8f, 0x92, 0x9d, 0x38, 0xf5, 0xbc, 0xb6, 0xda, 0x21, 0x10, 0xff, 0xf3, 0xd2,
  0xcd, 0x0c, 0x13, 0xec, 0x5f, 0x97, 0x44, 0x17, 0xc4, 0xa7, 0x7e, 0x3d, 0x64, 0x5d, 0x19, 0x73,
  0x60, 0x81, 0x4f, 0xdc, 0x22, 0x2a, 0x90, 0x88, 0x46, 0xee, 0xb8, 0x14, 0xde, 0x5e, 0x0b, 0xdb,
  0xe0, 0x32, 0x3a, 0x0a, 0x49, 0x06, 0x24, 0x5c, 0xc2, 0xd3, 0xac, 0x62, 0x91, 0x95, 0xe4, 0x79,
  0xe7, 0xc8, 0x37, 0x6d, 0x8d, 0xd5, 0x4e, 0xa9, 0x6c, 0x56, 0xf4, 0xea, 0x65, 0x7a, 0xae, 0x08,
  0xba, 0x78, 0x25, 0x2e, 0x1c, 0xa6, 0xb4, 0xc6, 0xe8, 0xdd, 0x74, 0x1f, 0x4b, 0xbd, 0x8b, 0x8a,
  0x70, 0x3e, 0xb5, 0x66, 0x48, 0x03, 0xf6, 0x0e, 0x61, 0x35, 0x57, 0xb9, 0x86, 0xc1, 0x1d, 0x9e,
  0xe1, 0xf8, 0x98, 0x11, 0x69, 0xd9, 0x8e, 0x94, 0x9b, 0x1e, 0x87, 0xe9, 0xce, 0x55, 0x28, 0xdf,
  0x8c, 0xa1, 0x89, 0x0d, 0xbf, 0xe6, 0x42, 0x68, 0x41, 0x99, 0x2d, 0x0f, 0xb0, 0x54, 0xbb, 0x16]

/-- Substitution of one byte. -/
def sbox (b : Nat) : Nat := sboxTable.getD b 0

/-- Multiplication of a byte by `x` in GF(2^8) modulo `x^8 + x^4 + x^3 + x + 1`. -/
def xtime (b : Nat) : Nat := if b < 0x80 then 2 * b else (2 * b - 0x100) ^^^ 0x1b

/-- The S-box applied to each byte of a 32-bit word. -/
def subWord (w : Nat) : Nat :=
  sbox (w / 0x1000000) * 0x1000000 + sbox (w / 0x10000 % 0x100) * 0x10000
    + sbox (w / 0x100 % 0x100) * 0x100 + sbox (w % 0x100)

/-- Rotation of a 32-bit word by one byte to the left. -/
def rotWord (w : Nat) : Nat := w % 0x1000000 * 0x100 + w / 0x1000000

/-- Round constants: `rcon n` is `x^n` in GF(2^8). -/
def rcon : Nat → Nat
  | 0 => 0x01
  | n + 1 => xtime (rcon n)

/-- The key as big-endian 32-bit words. -/
def keyWords (key : Bytes) : List Nat :=
  (List.range (key.length / 4)).map fun i =>
    ((key.drop (4 * i)).take 4).foldl (fun a b => a * 0x100 + b.toNat) 0

/-- Key expansion loop (FIPS-197, section 5.2): `fuel` further words are appended to `w`,
the next one having index `i`. -/
def expandLoop (nk : Nat) : Nat → Nat → List Nat → List Nat
  | 0, _, w => w
  | fuel + 1, i, w =>
    let temp := w.getD (i - 1) 0
    let temp :=
      if i % nk = 0 then subWord (rotWord temp) ^^^ (rcon (i / nk - 1) * 0x1000000)
      else if 6 < nk ∧ i % nk = 4 then subWord temp
      else temp
    expandLoop nk fuel (i + 1) (w ++ [w.getD (i - nk) 0 ^^^ temp])

/-- The key schedule: `4 * (Nr + 1)` words with `Nr = Nk + 6` rounds. -/
def expandKey (key : Bytes) : List Nat :=
  let nk := key.length / 4
  expandLoop nk (4 * (nk + 7) - nk) nk (keyWords key)

/-- The 16 bytes of round key `r`. -/
def roundKey (w : List Nat) (r : Nat) : List Nat :=
  (List.range 16).map fun i => w.getD (4 * r + i / 4) 0 / 0x100 ^ (3 - i % 4) % 0x100

/-- XOR of the state with a round key. -/
def addRoundKey (s k : List Nat) : List Nat := List.zipWith (· ^^^ ·) s k

/-- The S-box applied to each byte of the state. -/
def subBytes (s : List Nat) : List Nat := s.map sbox

/-- Row `r` of the state rotated by `r` columns to the left. -/
def shiftRows (s : List Nat) : List Nat :=
  (List.range 16).map fun i => s.getD (4 * ((i / 4 + i % 4) % 4) + i % 4) 0

/-- Each column multiplied by the matrix with rows `02 03 01 01` rotated. -/
def mixColumns (s : List Nat) : List Nat :=
  (List.range 16).map fun i =>
    let a := fun j => s.getD (4 * (i / 4) + (i % 4 + j) % 4) 0
    xtime (a 0) ^^^ (xtime (a 1) ^^^ a 1) ^^^ a 2 ^^^ a 3

/-- The `n` full rounds that start with round key `r`. -/
def rounds (w : List Nat) : Nat → Nat → List Nat → List Nat
  | 0, _, s => s
  | n + 1, r, s =>
    rounds w n (r + 1) (addRoundKey (mixColumns (shiftRows (subBytes s))) (roundKey w r))

/-- The cipher (FIPS-197, section 5.1) on a 16-byte state. -/
def encryptBlock (key : Bytes) (src : List Nat) : List Nat :=
  let w := expandKey key
  let nr := key.length / 4 + 6
  let s := rounds w (nr - 1) 1 (addRoundKey src (roundKey w 0))
  addRoundKey (shiftRows (subBytes s)) (roundKey w nr)

/-- Big-endian value of a byte string, as used for 128-bit blocks. -/
def beNat (b : List Nat) : Nat := b.foldl (fun a x => a * 0x100 + x) 0

/-- The 16 bytes of a 128-bit block, most significant first. -/
def blockBytes (x : Nat) : List Nat :=
  (List.range 16).map fun i => x / 0x100 ^ (15 - i) % 0x100

/-- Encryption of one block under `key`, on blocks read as big-endian integers. -/
def encrypt (key : Bytes) (x : Nat) : Nat := beNat (encryptBlock key (blockBytes x))

end aes

/-! ## Model of `crypto/cipher` (GCM, NIST SP 800-38D) -/

namespace cipher

/-- Go interface `cipher.Block`; blocks are read as big-endian integers. -/
structure Block where
  BlockSize : Nat
  Encrypt : Nat → Nat

/-- Go struct `cipher.gcm`, the value behind the `cipher.AEAD` returned by `NewGCM`. -/
structure GCM where
  cipher : Block
  nonceSize : Nat
  tagSize : Nat

/-- Constants of `crypto/cipher/gcm.go`. -/
def gcmBlockSize : Nat := 16
def gcmTagSize : Nat := 16
def gcmStandardNonceSize : Nat := 12

/-- Error of `Open`: `errOpen`. -/
def errOpen : String := "cipher: message authentication failed"

/-- One step of the multiplication in GF(2^128): `z` accumulates, `v` is the running
multiple of the second operand, bit `i` of `x` is counted from the most significant. -/
def mulLoop (x : Nat) : Nat → Nat → Nat → Nat → Nat
  | 0, _, z, _ => z
  | n + 1, i, z, v =>
    mulLoop x n (i + 1) (if x.testBit (127 - i) then z ^^^ v else z)
      (if v.testBit 0 then (v / 2) ^^^ (0xe1 * 2 ^ 120) else v / 2)

/-- Multiplication in GF(2^128) with the GCM bit order. -/
def gfMul (x y : Nat) : Nat := mulLoop x 128 0 0 y

/-- The 16 bytes of a block, most significant first. -/
def putBlock (x : Nat) : Bytes :=
  (List.range 16).map fun i => UInt8.ofNat (x / 0x100 ^ (15 - i))

/-- A chunk of at most 16 bytes read as a block, zero-padded on the right. -/
def getBlock (chunk : Bytes) : Nat :=
  chunk.foldl (fun a b => a * 0x100 + b.toNat) 0 * 0x100 ^ (16 - chunk.length)

/-- The 16-byte blocks of `data`, the last one zero-padded. -/
def blocksOf (data : Bytes) : List Nat :=
  (List.range ((data.length + 15) / 16)).map fun i => getBlock ((data.drop (16 * i)).take 16)

/-- GHASH update of `y` with `blocks` under hash key `h`. -/
def updateBlocks (h : Nat) (y : Nat) (blocks : List Nat) : Nat :=
  blocks.foldl (fun y b => gfMul (y ^^^ b) h) y

/-- Increment of the low 32 bits of a counter block. -/
def gcmInc32 (cb : Nat) : Nat := cb - cb % 2 ^ 32 + (cb % 2 ^ 32 + 1) % 2 ^ 32

/-- Initial counter block for a nonce of the standard size: `nonce || 0x00000001`. -/
def deriveCounter (nonce : Bytes) : Nat :=
  nonce.foldl (fun a b => a * 0x100 + b.toNat) 0 * 2 ^ 32 + 1

/-- Key stream of `n` blocks starting at counter block `cb`. -/
def ctrBlocks (g : GCM) : Nat → Nat → Bytes
  | 0, _ => []
  | n + 1, cb => putBlock (g.cipher.Encrypt cb) ++ ctrBlocks g n (gcmInc32 cb)

/-- CTR-mode transformation `counterCrypt`: XOR of `input` with the key stream that
starts at `cb`. -/
def counterCrypt (g : GCM) (cb : Nat) (input : Bytes) : Bytes :=
  List.zipWith (· ^^^ ·) input (ctrBlocks g ((input.length + 15) / 16) cb)

/-- Tag computation `auth`: GHASH over the additional data, the ciphertext and their
bit lengths, masked with `tagMask`, cut to the tag size. -/
def auth (g : GCM) (ciphertext additionalData : Bytes) (tagMask : Nat) : Bytes :=
  let h := g.cipher.Encrypt 0
  let y := updateBlocks h 0 (blocksOf additionalData)
  let y := updateBlocks h y (blocksOf ciphertext)
  let y := gfMul (y ^^^ (additionalData.length * 8 * 2 ^ 64 + ciphertext.length * 8)) h
  (putBlock (y ^^^ tagMask)).take g.tagSize

/-- Go `cipher.NewGCM`. -/
def NewGCM (b : Block) : Except String GCM :=
  if b.BlockSize ≠ gcmBlockSize then
    .error "cipher: NewGCM requires 128-bit block cipher"
  else
    .ok ⟨b, gcmStandardNonceSize, gcmTagSize⟩

namespace GCM

/-- Go `NonceSize()`. -/
def NonceSize (g : GCM) : Nat := g.nonceSize

/-- Go `Overhead()`. -/
def Overhead (g : GCM) : Nat := g.tagSize

/-- Go `Seal(nil, nonce, plaintext, additionalData)`: ciphertext followed by the tag.
The library panics when the nonce has not `NonceSize` bytes or the plaintext exceeds
`(2^32 - 2) * 16` bytes; the callers in `crypto.go` always pass a nonce of `NonceSize`
bytes, and plaintexts beyond that bound are outside this model. -/
def Seal (g : GCM) (nonce plaintext additionalData : Bytes) : Bytes :=
  let counter := deriveCounter nonce
  let tagMask := g.cipher.Encrypt counter
  let out := counterCrypt g (gcmInc32 counter) plaintext
  out ++ auth g out additionalData tagMask

/-- Go `Open(nil, nonce, ciphertext, additionalData)`. -/
def Open (g : GCM) (nonce ciphertext additionalData : Bytes) : Except String Bytes :=
  if ciphertext.length < g.tagSize then
    .error errOpen
  else
    let tag := ciphertext.drop (ciphertext.length - g.tagSize)
    let ciphertext := ciphertext.take (ciphertext.length - g.tagSize)
    let counter := deriveCounter nonce
    let tagMask := g.cipher.Encrypt counter
    let expectedTag := auth g ciphertext additionalData tagMask
    if expectedTag ≠ tag then
      .error errOpen
    else
      .ok (counterCrypt g (gcmInc32 counter) ciphertext)

end GCM

end cipher

namespace aes

/-- Go `aes.NewCipher`: fails with a `KeySizeError` unless the key has 16, 24 or 32
bytes. -/
def NewCipher (key : Bytes) : Except String cipher.Block :=
  if key.length = 16 ∨ key.length = 24 ∨ key.length = 32 then
    .ok ⟨16, encrypt key⟩
  else
    .error ("crypto/aes: invalid key size " ++ toString key.length)

end aes

/-! ## Other standard-library functions -/

namespace io

/-- A Go `io.Reader` that delivers `data` and then fails with `err` (`"EOF"` for `io.EOF`). -/
structure Reader where
  data : Bytes
  err : String

/-- Go `io.ReadFull(r, buf)` with `len(buf) = n`: exactly `n` bytes, or an error. -/
def ReadFull (r : Reader) (n : Nat) : Except String Bytes :=
  if n ≤ r.data.length then
    .ok (r.data.take n)
  else if r.data.length = 0 then
    .error r.err
  else if r.err = "EOF" then
    .error "unexpected EOF"
  else
    .error r.err

end io

namespace strings

/-- Go `strings.HasPrefix(s, pre)`. -/
def HasPrefix (s pre : String) : Bool := pre.data.isPrefixOf s.data

/-- Go `strings.LastIndex(s, sep)` for a one-character separator, on the characters of `s`. -/
def LastIndex : List Char → Char → Option Nat
  | [], _ => none
  | x :: xs, c =>
    match LastIndex xs c with
    | some i => some (i + 1)
    | none => if x = c then some 0 else none

end strings

namespace path

/-- Go `path.Base`: the last element of a slash-separated path. -/
def Base (p : String) : String :=
  if p = "" then "."
  else
    -- Strip trailing slashes.
    let p := p.data.rdropWhile (· = '/')
    -- Find the last element.
    let p := match strings.LastIndex p '/' with
      | some i => p.drop (i + 1)
      | none => p
    -- If empty now, it had only slashes.
    if p = [] then "/" else String.mk p

end path

namespace base64

/-- The standard base64 alphabet. -/
def encodeStd : String := "ABCDEFGHIJKLMNOPQRSTUVWXYZabcdefghijklmnopqrstuvwxyz0123456789+/"

/-- The base64 digit of the low 6 bits of `v`. -/
def digit (v : Nat) : Char := encodeStd.data.getD (v % 64) 'A'

/-- Go `base64.StdEncoding.EncodeToString`, on the characters of the result. -/
def encode : Bytes → List Char
  | a :: b :: c :: rest =>
    let v := a.toNat * 0x10000 + b.toNat * 0x100 + c.toNat
    digit (v / 0x40000) :: digit (v / 0x1000) :: digit (v / 0x40) :: digit v :: encode rest
  | [a, b] =>
    let v := a.toNat * 0x10000 + b.toNat * 0x100
    [digit (v / 0x40000), digit (v / 0x1000), digit (v / 0x40), '=']
  | [a] =>
    let v := a.toNat * 0x10000
    [digit (v / 0x40000), digit (v / 0x1000), '=', '=']
  | [] => []

/-- Go `base64.StdEncoding.EncodeToString`. -/
def EncodeToString (src : Bytes) : String := String.mk (encode src)

end base64

/-- Standard-library functions taken as parameters: `base64.StdEncoding.DecodeString` and
`url.PathEscape`. -/
structure Lib where
  DecodeString : String → Except String Bytes
  PathEscape : String → String

/-! ## `crypto.go` -/

/-- Go `os.Getenv`: the value of a variable, `""` when unset. -/
abbrev Getenv := String → String

/-- Translation of `loadRuntimeConfig`: the returned error (`none` for `nil`) and the
value of the package variable `customerKey` afterwards. -/
def loadRuntimeConfig (lib : Lib) (getenv : Getenv) (customerKey : Bytes) :
    Option String × Bytes :=
  let b64 := getenv "CUSTOMER_KEY_BASE64"
  if b64 = "" then
    (some "CUSTOMER_KEY_BASE64 not set", customerKey)
  else
    match lib.DecodeString b64 with
    | .error err => (some err, customerKey)
    | .ok k =>
      if k.length ≠ 32 then
        (some "CUSTOMER_KEY_BASE64 must decode to 32 bytes (AES-256)", customerKey)
      else
        (none, k)

/-- Translation of `EncryptWithCustomerKey`; `rand` is `rand.Reader`. -/
def EncryptWithCustomerKey (customerKey : Bytes) (rand : io.Reader) (plaintext : Bytes) :
    Except String Bytes :=
  match aes.NewCipher customerKey with
  | .error err => .error err
  | .ok block =>
    match cipher.NewGCM block with
    | .error err => .error err
    | .ok gcm =>
      match io.ReadFull rand gcm.NonceSize with
      | .error err => .error err
      | .ok nonce =>
        -- Prepend nonce so decrypt can extract it
        let ct := gcm.Seal nonce plaintext []
        let out := nonce ++ ct
        .ok out

/-- Translation of `DecryptWithCustomerKey`. -/
def DecryptWithCustomerKey (customerKey : Bytes) (nonceAndCipher : Bytes) :
    Except String Bytes :=
  match aes.NewCipher customerKey with
  | .error err => .error err
  | .ok block =>
    match cipher.NewGCM block with
    | .error err => .error err
    | .ok gcm =>
      let ns := gcm.NonceSize
      if nonceAndCipher.length < ns then
        .error "ciphertext too short"
      else
        let nonce := nonceAndCipher.take ns
        let ct := nonceAndCipher.drop ns
        match gcm.Open nonce ct [] with
        | .error err => .error err
        | .ok pt => .ok pt

/-! ## `s3.go` -/

/-- Go `map[string]string`, as the list of its entries. -/
abbrev Metadata := List (String × String)

/-- Go map index `m[k]`: the value stored under `k`, `""` when `k` is absent. -/
def Metadata.get (m : Metadata) (k : String) : String := (m.lookup k).getD ""

/-- Go `aws.Config`; only the region is read here. -/
structure Config where
  Region : String
deriving DecidableEq

/-- Fields of `s3.PutObjectInput` that `s3.go` sets; `""` and `none` stand for unset. -/
structure PutObjectInput where
  Bucket : String
  Key : String
  Body : Bytes
  Metadata : Metadata
  ServerSideEncryption : String
  SSEKMSKeyId : Option String
deriving DecidableEq

/-- Fields of `s3.GetObjectInput` that `s3.go` sets. -/
structure GetObjectInput where
  Bucket : String
  Key : String
deriving DecidableEq

/-- Fields of `s3.GetObjectOutput` that `s3.go` reads; `Body` is what `io.ReadAll(out.Body)`
returns. -/
structure GetObjectOutput where
  Body : Except String Bytes
  Metadata : Metadata

/-- Everything the handlers read from outside the request: the environment, the AWS
configuration loader, the package variable `customerKey`, the random source and the
answers of the object store. -/
structure World where
  getenv : Getenv
  LoadDefaultConfig : String → Except String Config
  customerKey : Bytes
  rand : io.Reader
  PutObject : Config → PutObjectInput → Option String
  GetObject : Config → GetObjectInput → Except String GetObjectOutput

/-- Translation of `getRegion`. -/
def getRegion (getenv : Getenv) : String :=
  let region := getenv "AWS_REGION"
  if region = "" then
    -- Default fallback if not set, but prefer env var
    "us-east-1"
  else
    region

/-- Translation of `loadAWSConfig`. -/
def loadAWSConfig (w : World) : Except String Config :=
  match w.LoadDefaultConfig (getRegion w.getenv) with
  | .error err => .error err
  | .ok cfg => .ok cfg

/-- The request `UploadSSEKMS` sends to the store. -/
def UploadSSEKMSInput (bucket key : String) (body : Bytes) (kmsKeyID : String) :
    PutObjectInput :=
  ⟨bucket, key, body, [], "aws:kms", some kmsKeyID⟩

/-- Translation of `UploadSSEKMS`: the error of the store's answer. -/
def UploadSSEKMS (w : World) (cfg : Config) (bucket key : String) (body : Bytes)
    (kmsKeyID : String) : Option String :=
  w.PutObject cfg (UploadSSEKMSInput bucket key body kmsKeyID)

/-- The request `UploadRaw` sends to the store. -/
def UploadRawInput (bucket key : String) (body : Bytes) (metadata : Metadata) :
    PutObjectInput :=
  ⟨bucket, key, body, metadata, "", none⟩

/-- Translation of `UploadRaw`: the error of the store's answer. -/
def UploadRaw (w : World) (cfg : Config) (bucket key : String) (body : Bytes)
    (metadata : Metadata) : Option String :=
  w.PutObject cfg (UploadRawInput bucket key body metadata)

/-- Translation of `GetObjectBytes`. -/
def GetObjectBytes (w : World) (cfg : Config) (bucket key : String) :
    Except String (Bytes × Metadata) :=
  match w.GetObject cfg ⟨bucket, key⟩ with
  | .error err => .error err
  | .ok out =>
    match out.Body with
    | .error err => .error err
    | .ok b => .ok (b, out.Metadata)

/-- Translation of `S3URL`. -/
def S3URL (lib : Lib) (bucket key : String) : String :=
  "s3://" ++ bucket ++ "/" ++ lib.PathEscape key

/-! ## `handlers.go` -/

/-- A value of the template data; `text b` is the Go string with bytes `b`. -/
inductive Value where
  | str (s : String)
  | text (b : Bytes)
deriving DecidableEq

/-- What a handler writes: `http.Error(w, error, code)`, or
`templates.ExecuteTemplate(w, name, data)` with the entries of `data`. -/
inductive Response where
  | Error (error : String) (code : Nat)
  | ExecuteTemplate (name : String) (data : List (String × Value))
deriving DecidableEq

/-- A handler run: the response and the requests sent to the store, in order. -/
structure Outcome where
  response : Response
  puts : List PutObjectInput
deriving DecidableEq

/-- The uploaded file: `header.Filename` and what `io.ReadAll(file)` returns. -/
structure FormFile where
  Filename : String
  ReadAll : Except String Bytes

/-- Fields of `http.Request` that the handlers read. -/
structure Request where
  Method : String
  Query : String → String
  ParseMultipartForm : Option String
  FormValue : String → String
  FormFile : String → Except String FormFile

/-- Status codes of `net/http`. -/
def StatusBadRequest : Nat := 400
def StatusMethodNotAllowed : Nat := 405
def StatusInternalServerError : Nat := 500

/-- Translation of `uploadHandler` (logging left out). -/
def uploadHandler (lib : Lib) (w : World) (r : Request) : Outcome :=
  if r.Method ≠ "POST" then
    ⟨.Error "POST only" StatusMethodNotAllowed, []⟩
  else
    match r.ParseMultipartForm with
    | some err => ⟨.Error ("parse form: " ++ err) StatusBadRequest, []⟩
    | none =>
      let method := r.FormValue "method"
      match r.FormFile "file" with
      | .error err => ⟨.Error ("file required: " ++ err) StatusBadRequest, []⟩
      | .ok file =>
        match file.ReadAll with
        | .error err => ⟨.Error ("read: " ++ err) StatusInternalServerError, []⟩
        | .ok data =>
          match loadAWSConfig w with
          | .error err => ⟨.Error ("aws config: " ++ err) StatusInternalServerError, []⟩
          | .ok cfg =>
            let bucket := w.getenv "S3_BUCKET"
            if bucket = "" then
              ⟨.Error "S3_BUCKET not set" StatusInternalServerError, []⟩
            else
              let fname := path.Base file.Filename
              if method = "sse-kms" then
                let kmsKey := w.getenv "SSE_KMS_KEY_ID"
                if kmsKey = "" then
                  ⟨.Error "SSE_KMS_KEY_ID not set" StatusInternalServerError, []⟩
                else
                  let key := "sse/" ++ fname
                  match UploadSSEKMS w cfg bucket key data kmsKey with
                  | some err =>
                    ⟨.Error ("upload sse-kms failed: " ++ err) StatusInternalServerError,
                      [UploadSSEKMSInput bucket key data kmsKey]⟩
                  | none =>
                    -- show result
                    ⟨.ExecuteTemplate "index.html" [
                        ("Bucket", .str bucket),
                        ("method", .str "sse-kms"),
                        ("filename", .str fname),
                        ("s3_key", .str key),
                        ("s3_url", .str (S3URL lib bucket key))],
                      [UploadSSEKMSInput bucket key data kmsKey]⟩
              else if method = "customer" then
                -- encrypt using customerKey
                match EncryptWithCustomerKey w.customerKey w.rand data with
                | .error err =>
                  ⟨.Error ("encrypt failed: " ++ err) StatusInternalServerError, []⟩
                | .ok cipherBytes =>
                  let key := "cse/" ++ fname
                  let meta : Metadata := [
                    ("cse", "aes-gcm"),
                    ("original", fname),
                    ("content-ct", "application/octet-stream")]
                  match UploadRaw w cfg bucket key cipherBytes meta with
                  | some err =>
                    ⟨.Error ("upload cse failed: " ++ err) StatusInternalServerError,
                      [UploadRawInput bucket key cipherBytes meta]⟩
                  | none =>
                    let cipherB64 := base64.EncodeToString cipherBytes
                    let snippet := cipherB64
                    let snippet :=
                      if snippet.length > 512 then
                        String.mk (snippet.data.take 512) ++ "...(truncated)"
                      else snippet
                    ⟨.ExecuteTemplate "index.html" [
                        ("Bucket", .str bucket),
                        ("method", .str "customer"),
                        ("filename", .str fname),
                        ("s3_key", .str key),
                        ("s3_url", .str (S3URL lib bucket key)),
                        ("cipher_b64_snippet", .str snippet),
                        ("cipher_b64_full", .str cipherB64)],
                      [UploadRawInput bucket key cipherBytes meta]⟩
              else
                ⟨.Error "unknown method" StatusBadRequest, []⟩

/-- Translation of `downloadHandler`. -/
def downloadHandler (w : World) (r : Request) : Response :=
  let key := r.Query "key"
  if key = "" then
    .Error "key required" StatusBadRequest
  else
    match loadAWSConfig w with
    | .error err => .Error ("aws config: " ++ err) StatusInternalServerError
    | .ok cfg =>
      let bucket := w.getenv "S3_BUCKET"
      if bucket = "" then
        .Error "S3_BUCKET not set" StatusInternalServerError
      else
        match GetObjectBytes w cfg bucket key with
        | .error err => .Error ("get object: " ++ err) StatusInternalServerError
        | .ok (bytes, meta) =>
          -- determine if this is client-side encrypted by metadata or prefix
          if meta.get "cse" = "aes-gcm" ∨ strings.HasPrefix key "cse/" = true then
            -- decrypt with customer key
            match DecryptWithCustomerKey w.customerKey bytes with
            | .error err => .Error ("decrypt failed: " ++ err) StatusInternalServerError
            | .ok pt =>
              -- display plaintext in a simple page
              .ExecuteTemplate "index.html" [
                ("Bucket", .str bucket),
                ("method", .str "customer-download"),
                ("s3_key", .str key),
                ("plaintext", .text pt),
                ("filename", .str (path.Base key))]
          else
            -- else, treat as normal sse-kms/plain object and show content directly
            .ExecuteTemplate "index.html" [
              ("Bucket", .str bucket),
              ("method", .str "sse-download"),
              ("s3_key", .str key),
              ("plaintext", .text bytes),
              ("filename", .str (path.Base key))]

/-! ## Definitions used to state the properties -/

/-- The AEAD that `crypto.go` builds from a key: AES under `key` in GCM with the standard
nonce and tag sizes. -/
def customerGCM (key : Bytes) : cipher.GCM := ⟨⟨16, aes.encrypt key⟩, 12, 16⟩

/-- The page `downloadHandler` renders after a successful client-side decryption. -/
def customerDownloadPage (bucket key : String) (pt : Bytes) : Response :=
  .ExecuteTemplate "index.html" [
    ("Bucket", .str bucket),
    ("method", .str "customer-download"),
    ("s3_key", .str key),
    ("plaintext", .text pt),
    ("filename", .str (path.Base key))]

/-- The page `downloadHandler` renders for an object it does not decrypt. -/
def sseDownloadPage (bucket key : String) (bytes : Bytes) : Response :=
  .ExecuteTemplate "index.html" [
    ("Bucket", .str bucket),
    ("method", .str "sse-download"),
    ("s3_key", .str key),
    ("plaintext", .text bytes),
    ("filename", .str (path.Base key))]

/-- The response of the decryption branch of `downloadHandler` on stored `bytes`. -/
def decryptBranch (customerKey : Bytes) (bucket key : String) (bytes : Bytes) : Response :=
  match DecryptWithCustomerKey customerKey bytes with
  | .error err => .Error ("decrypt failed: " ++ err) StatusInternalServerError
  | .ok pt => customerDownloadPage bucket key pt

/-! ## Concrete inputs for the examples -/

/-- A library instance for the examples: no secret decodes, nothing is escaped. -/
def demoLib : Lib := ⟨fun _ => .error "illegal base64 data at input byte 0", fun s => s⟩

/-- A 32-byte key: bytes `0x00 .. 0x1f`. -/
def demoKey : Bytes := (List.range 32).map UInt8.ofNat

/-- A random source that delivers the bytes `100 .. 115`. -/
def demoRand : io.Reader := ⟨(List.range 16).map fun i => UInt8.ofNat (100 + i), "EOF"⟩

/-- The bytes of `"hello world"`. -/
def helloWorld : Bytes := [104, 101, 108, 108, 111, 32, 119, 111, 114, 108, 100]

/-- The envelope of `helloWorld` under `demoKey` with the nonce `100 .. 111`: 39 bytes. -/
def helloEnvelope : Bytes := [
  100, 101, 102, 103, 104, 105, 106, 107, 108, 109, 110, 111,
  0x20, 0x7e, 0xb2, 0x0a, 0x16, 0xc9, 0x21, 0xf1, 0x4c, 0x0e, 0x3b,
  0x7c, 0xa1, 0xd8, 0xd2, 0x9c, 0xb8, 0x8e, 0xd7, 0x08,
  0xf8, 0xb3, 0x50, 0xfb, 0x86, 0x3e, 0xed]

/-- A world with bucket `demo-bucket`, key `demoKey`, whose store accepts every upload and
answers every download with `obj`. -/
def demoWorld (obj : Except String GetObjectOutput) : World where
  getenv := fun v => if v = "S3_BUCKET" then "demo-bucket" else ""
  LoadDefaultConfig := fun region => .ok ⟨region⟩
  customerKey := demoKey
  rand := demoRand
  PutObject := fun _ _ => none
  GetObject := fun _ _ => obj

/-- A `POST /upload` request with form value `method` and one file. -/
def uploadRequest (method filename : String) (data : Bytes) : Request where
  Method := "POST"
  Query := fun _ => ""
  ParseMultipartForm := none
  FormValue := fun k => if k = "method" then method else ""
  FormFile := fun k => if k = "file" then .ok ⟨filename, .ok data⟩ else .error "http: no such file"

/-- A `GET /download?key=...` request. -/
def downloadRequest (key : String) : Request where
  Method := "GET"
  Query := fun k => if k = "key" then key else ""
  ParseMultipartForm := none
  FormValue := fun _ => ""
  FormFile := fun _ => .error "http: no such file"

/-! ## Lemmas about the library model -/

theorem xor_cancel_byte (a b : UInt8) : (a ^^^ b) ^^^ b = a := by
  cases a with | mk a =>
  cases b with | mk b =>
  show UInt8.xor (UInt8.xor _ _) _ = _
  simp only [UInt8.xor]
  congr 1
  rw [BitVec.xor_assoc, BitVec.xor_self, BitVec.xor_zero]

theorem zipWith_xor_cancel (l ks : Bytes) (h : l.length ≤ ks.length) :
    List.zipWith (· ^^^ ·) (List.zipWith (· ^^^ ·) l ks) ks = l := by
  induction l generalizing ks with
  | nil => simp
  | cons a l ih =>
    cases ks with
    | nil => simp at h
    | cons k ks =>
      simp only [List.zipWith_cons_cons, List.length_cons, Nat.add_le_add_iff_right] at h ⊢
      rw [xor_cancel_byte, ih ks h]

namespace cipher

theorem putBlock_length (x : Nat) : (putBlock x).length = 16 := by
  simp [putBlock]

theorem ctrBlocks_length (g : GCM) (n cb : Nat) : (ctrBlocks g n cb).length = 16 * n := by
  induction n generalizing cb with
  | zero => simp [ctrBlocks]
  | succ n ih => simp [ctrBlocks, putBlock_length, ih]; omega

theorem counterCrypt_length (g : GCM) (cb : Nat) (input : Bytes) :
    (counterCrypt g cb input).length = input.length := by
  simp only [counterCrypt, List.length_zipWith, ctrBlocks_length]
  omega

theorem counterCrypt_counterCrypt (g : GCM) (cb : Nat) (input : Bytes) :
    counterCrypt g cb (counterCrypt g cb input) = input := by
  have h := counterCrypt_length g cb input
  unfold counterCrypt at h ⊢
  rw [h]
  apply zipWith_xor_cancel
  rw [ctrBlocks_length]
  omega

theorem auth_length (g : GCM) (ct ad : Bytes) (m : Nat) (h : g.tagSize ≤ 16) :
    (auth g ct ad m).length = g.tagSize := by
  simp only [auth, List.length_take, putBlock_length]
  omega

theorem Seal_length (g : GCM) (nonce pt ad : Bytes) (h : g.tagSize ≤ 16) :
    (g.Seal nonce pt ad).length = pt.length + g.tagSize := by
  simp only [GCM.Seal, List.length_append, counterCrypt_length, auth_length g _ _ _ h]

theorem Open_Seal (g : GCM) (nonce pt ad : Bytes) (h : g.tagSize ≤ 16) :
    g.Open nonce (g.Seal nonce pt ad) ad = .ok pt := by
  have hl := Seal_length g nonce pt ad h
  unfold GCM.Open
  rw [if_neg (by omega)]
  have hlen : (g.Seal nonce pt ad).length - g.tagSize = (counterCrypt g (gcmInc32 (deriveCounter nonce)) pt).length := by
    rw [hl, counterCrypt_length]; omega
  simp only [hlen]
  simp only [GCM.Seal, List.take_left', List.drop_left', ne_eq, not_true_eq_false, if_false, counterCrypt_counterCrypt]

end cipher

/-! ## Lemmas about `crypto.go` and `handlers.go` -/

theorem aes.NewCipher_ok (key : Bytes) (h : key.length = 32) :
    aes.NewCipher key = .ok ⟨16, aes.encrypt key⟩ := by
  simp [aes.NewCipher, h]

theorem newGCM_customer (key : Bytes) :
    cipher.NewGCM ⟨16, aes.encrypt key⟩ = .ok (customerGCM key) := by
  simp [cipher.NewGCM, cipher.gcmBlockSize, customerGCM, cipher.gcmStandardNonceSize,
    cipher.gcmTagSize]

theorem io.ReadFull_length (r : io.Reader) (n : Nat) (b : Bytes)
    (h : io.ReadFull r n = .ok b) : b.length = n := by
  unfold io.ReadFull at h
  split at h
  · cases h; simp; omega
  · split at h
    · cases h
    · split at h <;> cases h

theorem io.ReadFull_ok (r : io.Reader) (n : Nat) (h : n ≤ r.data.length) :
    io.ReadFull r n = .ok (r.data.take n) := by
  simp [io.ReadFull, h]

theorem EncryptWithCustomerKey_eq (K : Bytes) (rand : io.Reader) (P nonce : Bytes)
    (hK : K.length = 32) (hr : io.ReadFull rand 12 = .ok nonce) :
    EncryptWithCustomerKey K rand P = .ok (nonce ++ (customerGCM K).Seal nonce P []) := by
  unfold EncryptWithCustomerKey
  rw [aes.NewCipher_ok K hK]
  simp only [newGCM_customer]
  have : (customerGCM K).NonceSize = 12 := rfl
  rw [this, hr]

theorem DecryptWithCustomerKey_eq (K x : Bytes) (hK : K.length = 32) :
    DecryptWithCustomerKey K x =
      if x.length < 12 then .error "ciphertext too short"
      else (customerGCM K).Open (x.take 12) (x.drop 12) [] := by
  unfold DecryptWithCustomerKey
  rw [aes.NewCipher_ok K hK]
  simp only [newGCM_customer]
  have : (customerGCM K).NonceSize = 12 := rfl
  rw [this]
  split
  · rfl
  · cases (customerGCM K).Open (x.take 12) (x.drop 12) [] <;> rfl

theorem cipher.Open_error (g : cipher.GCM) (nonce ct ad : Bytes) (e : String)
    (h : g.Open nonce ct ad = .error e) : e = cipher.errOpen := by
  unfold cipher.GCM.Open at h
  split at h
  · cases h; rfl
  · simp only at h
    split at h
    · cases h; rfl
    · cases h

theorem downloadHandler_eq (w : World) (r : Request) (cfg : Config) (bytes : Bytes)
    (md : Metadata) (hkey : r.Query "key" ≠ "") (hcfg : loadAWSConfig w = .ok cfg)
    (hb : w.getenv "S3_BUCKET" ≠ "")
    (hget : GetObjectBytes w cfg (w.getenv "S3_BUCKET") (r.Query "key") = .ok (bytes, md)) :
    downloadHandler w r =
      if md.get "cse" = "aes-gcm" ∨ strings.HasPrefix (r.Query "key") "cse/" = true then
        decryptBranch w.customerKey (w.getenv "S3_BUCKET") (r.Query "key") bytes
      else sseDownloadPage (w.getenv "S3_BUCKET") (r.Query "key") bytes := by
  unfold downloadHandler
  simp only [hkey, if_false, hcfg, hb, hget]
  split
  · unfold decryptBranch
    cases DecryptWithCustomerKey w.customerKey bytes <;> rfl
  · rfl

theorem strings.HasPrefix_append (p s : String) : strings.HasPrefix (p ++ s) p = true := by
  simp [strings.HasPrefix, String.data_append]

theorem auth_length_customer (K ct ad : Bytes) (m : Nat) :
    (cipher.auth (customerGCM K) ct ad m).length = 16 :=
  cipher.auth_length (customerGCM K) ct ad m (Nat.le_refl 16)

theorem Seal_length_customer (K nonce pt ad : Bytes) :
    ((customerGCM K).Seal nonce pt ad).length = pt.length + 16 :=
  cipher.Seal_length (customerGCM K) nonce pt ad (Nat.le_refl 16)

/-- Upload of a file in caller-managed mode, up to the call of the store. -/
theorem uploadHandler_customer (lib : Lib) (w : World) (r : Request) (cfg : Config)
    (filename : String) (P nonce : Bytes)
    (hm : r.Method = "POST") (hparse : r.ParseMultipartForm = none)
    (hmethod : r.FormValue "method" = "customer")
    (hfile : r.FormFile "file" = .ok ⟨filename, .ok P⟩)
    (hcfg : loadAWSConfig w = .ok cfg) (hb : w.getenv "S3_BUCKET" ≠ "")
    (hK : w.customerKey.length = 32) (hr : io.ReadFull w.rand 12 = .ok nonce) :
    (uploadHandler lib w r).puts =
      [UploadRawInput (w.getenv "S3_BUCKET") ("cse/" ++ path.Base filename)
        (nonce ++ (customerGCM w.customerKey).Seal nonce P [])
        [("cse", "aes-gcm"), ("original", path.Base filename),
          ("content-ct", "application/octet-stream")]] := by
  unfold uploadHandler
  have hne : ("customer" : String) ≠ "sse-kms" := by decide
  simp only [hm, ne_eq, not_true_eq_false, if_false, hparse, hmethod, hfile, hcfg, hb, hne,
    if_true, EncryptWithCustomerKey_eq _ _ _ _ hK hr]
  cases UploadRaw w cfg (w.getenv "S3_BUCKET") ("cse/" ++ path.Base filename)
    (nonce ++ (customerGCM w.customerKey).Seal nonce P [])
    [("cse", "aes-gcm"), ("original", path.Base filename),
      ("content-ct", "application/octet-stream")] <;> rfl

/-- Every request `uploadHandler` sends to the store has key `"sse/"` or `"cse/"` followed
by the base name of the uploaded file. -/
theorem uploadHandler_key (lib : Lib) (w : World) (r : Request) (file : FormFile)
    (hfile : r.FormFile "file" = .ok file) (put : PutObjectInput)
    (hput : put ∈ (uploadHandler lib w r).puts) :
    put.Key = "sse/" ++ path.Base file.Filename ∨ put.Key = "cse/" ++ path.Base file.Filename := by
  unfold uploadHandler at hput
  simp only [hfile] at hput
  split at hput
  · simp at hput
  · split at hput
    · simp at hput
    · split at hput
      · simp at hput
      · split at hput
        · simp at hput
        · split at hput
          · simp at hput
          · split at hput
            · split at hput
              · simp at hput
              · split at hput <;>
                · simp only [List.mem_singleton] at hput
                  subst hput
                  left; rfl
            · split at hput
              · split at hput
                · simp at hput
                · split at hput <;>
                  · simp only [List.mem_singleton] at hput
                    subst hput
                    right; rfl
              · simp at hput

namespace strings

theorem LastIndex_none (l : List Char) (c : Char) (h : LastIndex l c = none) : c ∉ l := by
  induction l with
  | nil => simp
  | cons x xs ih =>
    unfold LastIndex at h
    split at h
    · cases h
    · rename_i hn
      split at h
      · cases h
      · rename_i hx
        simp only [List.mem_cons, not_or]
        exact ⟨fun e => hx e.symm, ih hn⟩

theorem LastIndex_some (l : List Char) (c : Char) (i : Nat) (h : LastIndex l c = some i) :
    c ∉ l.drop (i + 1) ∧ l.drop i = c :: l.drop (i + 1) := by
  induction l generalizing i with
  | nil => cases h
  | cons x xs ih =>
    unfold LastIndex at h
    split at h
    · rename_i j hj
      cases h
      have := ih j hj
      simpa using this
    · rename_i hn
      split at h
      · rename_i hx
        cases h
        subst hx
        simpa using LastIndex_none xs x hn
      · cases h

end strings

namespace path

/-- The characters of `Base p` for a non-empty `p`, before the empty case is replaced. -/
theorem Base_data (p : String) :
    (Base p).data = ['.'] ∧ p = "" ∨
    (Base p).data = ['/'] ∧ p ≠ "" ∧ (∀ c ∈ p.data, c = '/') ∨
    (Base p).data ≠ [] ∧ '/' ∉ (Base p).data ∧
      ∃ pre, p.data.rdropWhile (· = '/') = pre ++ (Base p).data ∧
        (pre = [] ∨ ∃ q, pre = q ++ ['/']) := by
  unfold Base
  by_cases hp : p = ""
  · left; simp [hp]
  · right
    simp only [hp, if_false]
    cases hl : strings.LastIndex (p.data.rdropWhile (· = '/')) '/' with
    | none =>
      simp only
      have hno := strings.LastIndex_none _ _ hl
      by_cases he : p.data.rdropWhile (· = '/') = []
      · left
        simp only [he, if_true, true_and]
        refine ⟨hp, ?_⟩
        rw [List.rdropWhile_eq_nil_iff] at he
        simpa using he
      · right
        simp only [he, if_false]
        exact ⟨he, hno, [], by simp, Or.inl rfl⟩
    | some i =>
      simp only
      obtain ⟨hno, hd⟩ := strings.LastIndex_some _ _ _ hl
      by_cases he : (p.data.rdropWhile (· = '/')).drop (i + 1) = []
      · -- the stripped path would end in a slash: impossible
        exfalso
        rw [he] at hd
        have hlast : (p.data.rdropWhile (· = '/')) =
            (p.data.rdropWhile (· = '/')).take i ++ ['/'] := by
          conv_lhs => rw [← List.take_append_drop i (p.data.rdropWhile (· = '/')), hd]
        have hne : p.data.rdropWhile (· = '/') ≠ [] := by
          rw [hlast]; simp
        have := List.rdropWhile_last_not (fun c => decide (c = '/')) p.data hne
        apply this
        have hl2 : (p.data.rdropWhile (· = '/')).getLast hne = '/' := by
          have : ∀ (l : List Char) (h1 : l ≠ []) (t : List Char), l = t ++ ['/'] →
              l.getLast h1 = '/' := by
            intro l h1 t e
            subst e
            simp
          exact this _ hne _ hlast
        simp [hl2]
      · right
        simp only [he, if_false]
        refine ⟨he, hno, (p.data.rdropWhile (· = '/')).take i ++ ['/'], ?_, Or.inr ⟨_, rfl⟩⟩
        conv_lhs => rw [← List.take_append_drop i (p.data.rdropWhile (· = '/')), hd]
        simp

end path

theorem decryptBranch_ne_sseDownloadPage (K : Bytes) (bucket key : String) (bytes stored : Bytes) :
    decryptBranch K bucket key bytes ≠ sseDownloadPage bucket key stored := by
  unfold decryptBranch
  cases DecryptWithCustomerKey K bytes with
  | error e => simp [sseDownloadPage]
  | ok pt => simp [customerDownloadPage, sseDownloadPage]

theorem GetObjectBytes_ok (w : World) (cfg : Config) (bucket key : String) (bytes : Bytes)
    (md : Metadata) (h : w.GetObject cfg ⟨bucket, key⟩ = .ok ⟨.ok bytes, md⟩) :
    GetObjectBytes w cfg bucket key = .ok (bytes, md) := by
  simp [GetObjectBytes, h]

theorem EncryptWithCustomerKey_ok_inv (K : Bytes) (rand : io.Reader) (P out : Bytes)
    (hK : K.length = 32) (h : EncryptWithCustomerKey K rand P = .ok out) :
    ∃ nonce, io.ReadFull rand 12 = .ok nonce ∧
      out = nonce ++ (customerGCM K).Seal nonce P [] := by
  cases hr : io.ReadFull rand 12 with
  | error e =>
    exfalso
    unfold EncryptWithCustomerKey at h
    rw [aes.NewCipher_ok K hK] at h
    simp only [newGCM_customer] at h
    have hn : (customerGCM K).NonceSize = 12 := rfl
    rw [hn, hr] at h
    cases h
  | ok nonce =>
    rw [EncryptWithCustomerKey_eq K rand P nonce hK hr] at h
    cases h
    exact ⟨nonce, rfl, rfl⟩

theorem DecryptWithCustomerKey_Encrypt (K : Bytes) (rand : io.Reader) (P out : Bytes)
    (hK : K.length = 32) (h : EncryptWithCustomerKey K rand P = .ok out) :
    DecryptWithCustomerKey K out = .ok P := by
  obtain ⟨nonce, hr, rfl⟩ := EncryptWithCustomerKey_ok_inv K rand P out hK h
  have hn := io.ReadFull_length rand 12 nonce hr
  rw [DecryptWithCustomerKey_eq _ _ hK]
  have hlen : ¬ (nonce ++ (customerGCM K).Seal nonce P []).length < 12 := by
    simp [hn]
  rw [if_neg hlen, List.take_left' hn, List.drop_left' hn]
  exact cipher.Open_Seal _ _ _ _ (Nat.le_refl 16)

/-- What `uploadHandler` sends to the store in caller-managed mode, whenever it sends
anything. -/
theorem uploadHandler_customer_put (lib : Lib) (w : World) (r : Request) (filename : String)
    (P : Bytes) (put : PutObjectInput)
    (hmethod : r.FormValue "method" = "customer")
    (hfile : r.FormFile "file" = .ok ⟨filename, .ok P⟩)
    (hput : put ∈ (uploadHandler lib w r).puts) :
    ∃ out, EncryptWithCustomerKey w.customerKey w.rand P = .ok out ∧
      put = UploadRawInput (w.getenv "S3_BUCKET") ("cse/" ++ path.Base filename) out
        [("cse", "aes-gcm"), ("original", path.Base filename),
          ("content-ct", "application/octet-stream")] := by
  unfold uploadHandler at hput
  have hne : ("customer" : String) ≠ "sse-kms" := by decide
  simp only [hfile, hmethod, hne, if_false, if_true] at hput
  split at hput
  · simp at hput
  · split at hput
    · simp at hput
    · split at hput
      · simp at hput
      · split at hput
        · simp at hput
        · cases he : EncryptWithCustomerKey w.customerKey w.rand P with
          | error e => simp [he] at hput
          | ok out =>
            refine ⟨out, rfl, ?_⟩
            simp only [he] at hput
            split at hput <;>
            · simp only [List.mem_singleton] at hput
              exact hput

/-- A modified tag is always rejected: for a 32-byte key, replacing the 16-byte tag of an
envelope by any other 16 bytes makes `DecryptWithCustomerKey` fail with `errOpen`. -/
theorem DecryptWithCustomerKey_modified_tag (K nonce P tag' : Bytes) (hK : K.length = 32)
    (hn : nonce.length = 12) (ht : tag'.length = 16)
    (hne : tag' ≠ cipher.auth (customerGCM K)
      (cipher.counterCrypt (customerGCM K) (cipher.gcmInc32 (cipher.deriveCounter nonce)) P) []
      ((customerGCM K).cipher.Encrypt (cipher.deriveCounter nonce))) :
    DecryptWithCustomerKey K
        (nonce ++ (cipher.counterCrypt (customerGCM K)
          (cipher.gcmInc32 (cipher.deriveCounter nonce)) P ++ tag')) =
      .error cipher.errOpen := by
  rw [DecryptWithCustomerKey_eq _ _ hK]
  have hlen : ¬ (nonce ++ (cipher.counterCrypt (customerGCM K)
      (cipher.gcmInc32 (cipher.deriveCounter nonce)) P ++ tag')).length < 12 := by
    simp [hn]
  rw [if_neg hlen, List.take_left' hn, List.drop_left' hn]
  unfold cipher.GCM.Open
  have hts : (customerGCM K).tagSize = 16 := rfl
  have hl : (cipher.counterCrypt (customerGCM K)
      (cipher.gcmInc32 (cipher.deriveCounter nonce)) P ++ tag').length - 16 =
      (cipher.counterCrypt (customerGCM K)
        (cipher.gcmInc32 (cipher.deriveCounter nonce)) P).length := by
    simp [ht]
  simp only [hts, hl, List.take_left', List.drop_left']
  rw [if_neg (by simp [ht])]
  rw [if_pos (fun h => hne h.symm)]

/-! ## Known answers of the library model

The model of `crypto/aes` and `crypto/cipher` reproduces the published vectors:
FIPS-197 Appendix C.3 (AES-256) and test case 14 of the GCM specification. -/

set_option maxRecDepth 100000 in
/-- FIPS-197, Appendix C.3: AES-256 of `00112233445566778899aabbccddeeff` under the key
`000102...1f` is `8ea2b7ca516745bfeafc49904b496089`. -/
theorem aes_encryptBlock_fips197 :
    aes.encryptBlock demoKey
        [0x00, 0x11, 0x22, 0x33, 0x44, 0x55, 0x66, 0x77,
          0x88, 0x99, 0xaa, 0xbb, 0xcc, 0xdd, 0xee, 0xff] =
      [0x8e, 0xa2, 0xb7, 0xca, 0x51, 0x67, 0x45, 0xbf,
        0xea, 0xfc, 0x49, 0x90, 0x4b, 0x49, 0x60, 0x89] := by
  decide

set_option maxRecDepth 100000 in
/-- GCM specification, test case 14: all-zero 256-bit key, all-zero 96-bit nonce, one
all-zero block of plaintext. -/
theorem gcm_Seal_test_case_14 :
    (customerGCM (List.replicate 32 0)).Seal (List.replicate 12 0) (List.replicate 16 0) [] =
      [0xce, 0xa7, 0x40, 0x3d, 0x4d, 0x60, 0x6b, 0x6e,
        0x07, 0x4e, 0xc5, 0xd3, 0xba, 0xf3, 0x9d, 0x18,
        0xd0, 0xd1, 0xc8, 0xa7, 0x99, 0x99, 0x6b, 0xf0,
        0x26, 0x5b, 0x98, 0xb5, 0xd4, 0x8a, 0xb9, 0x19] := by
  decide

set_option maxRecDepth 100000 in
/-- The envelope of `"hello world"` under `demoKey` with the nonce `demoRand` delivers. -/
theorem EncryptWithCustomerKey_helloWorld :
    EncryptWithCustomerKey demoKey demoRand helloWorld = .ok helloEnvelope := by
  decide

/-! ## The properties -/

/-- C1. Round trip: for every plaintext `P` (the empty one included), every 32-byte
customer key `K` and every nonce the random source returns, `EncryptWithCustomerKey`
succeeds and `DecryptWithCustomerKey` applied to its output under the same key succeeds
and returns exactly `P`. -/
theorem encrypt_decrypt_round_trip (K : Bytes) (rand : io.Reader) (P nonce : Bytes)
    (hK : K.length = 32) (hr : io.ReadFull rand 12 = .ok nonce) :
    ∃ out, EncryptWithCustomerKey K rand P = .ok out ∧
      DecryptWithCustomerKey K out = .ok P :=
  ⟨_, EncryptWithCustomerKey_eq K rand P nonce hK hr,
    DecryptWithCustomerKey_Encrypt K rand P _ hK (EncryptWithCustomerKey_eq K rand P nonce hK hr)⟩

/-- The round trip at `"hello world"` and at the empty plaintext, under `demoKey`. -/
theorem encrypt_decrypt_round_trip_witness :
    demoKey.length = 32 ∧
    (∃ out, EncryptWithCustomerKey demoKey demoRand helloWorld = .ok out ∧
      DecryptWithCustomerKey demoKey out = .ok helloWorld) ∧
    (∃ out, EncryptWithCustomerKey demoKey demoRand [] = .ok out ∧
      DecryptWithCustomerKey demoKey out = .ok []) :=
  ⟨by decide,
    encrypt_decrypt_round_trip demoKey demoRand helloWorld (demoRand.data.take 12)
      (by decide) (by decide),
    encrypt_decrypt_round_trip demoKey demoRand [] (demoRand.data.take 12)
      (by decide) (by decide)⟩

/-- C3. Key validation: `loadRuntimeConfig` succeeds if and only if the secret is
non-empty, decodes as standard base64 and the decoded value has exactly 32 bytes; on
success the process key is the decoded value. It fails with the missing-secret error when
the secret is empty, with the decoder's error when the encoding is invalid, and with the
wrong-length error when the decoded value has any other length (31 or 33, say); on
failure the process key is unchanged. -/
theorem loadRuntimeConfig_key_validation (lib : Lib) (getenv : Getenv) (key0 : Bytes) :
    ((loadRuntimeConfig lib getenv key0).1 = none ↔
        getenv "CUSTOMER_KEY_BASE64" ≠ "" ∧
          ∃ k, lib.DecodeString (getenv "CUSTOMER_KEY_BASE64") = .ok k ∧ k.length = 32) ∧
      (∀ k, (loadRuntimeConfig lib getenv key0).1 = none →
        lib.DecodeString (getenv "CUSTOMER_KEY_BASE64") = .ok k →
          (loadRuntimeConfig lib getenv key0).2 = k) ∧
      (getenv "CUSTOMER_KEY_BASE64" = "" →
        loadRuntimeConfig lib getenv key0 = (some "CUSTOMER_KEY_BASE64 not set", key0)) ∧
      (∀ e, getenv "CUSTOMER_KEY_BASE64" ≠ "" →
        lib.DecodeString (getenv "CUSTOMER_KEY_BASE64") = .error e →
          loadRuntimeConfig lib getenv key0 = (some e, key0)) ∧
      (∀ k, getenv "CUSTOMER_KEY_BASE64" ≠ "" →
        lib.DecodeString (getenv "CUSTOMER_KEY_BASE64") = .ok k → k.length ≠ 32 →
          loadRuntimeConfig lib getenv key0 =
            (some "CUSTOMER_KEY_BASE64 must decode to 32 bytes (AES-256)", key0)) := by
  unfold loadRuntimeConfig
  by_cases h : getenv "CUSTOMER_KEY_BASE64" = ""
  · simp [h]
  · cases hd : lib.DecodeString (getenv "CUSTOMER_KEY_BASE64") with
    | error e => simp [h, hd]
    | ok k =>
      by_cases hl : k.length = 32
      · simp [h, hd, hl]
      · simp [h, hd, hl]

/-- C7. Envelope wire format: the output of `EncryptWithCustomerKey` is the 12-byte nonce
that was drawn, followed by the output of the AEAD for that nonce and `P` with no
associated data, which is a ciphertext as long as `P` followed by a 16-byte tag. Its
length is `len(P) + 28` (28 for the empty plaintext, 39 for 11 bytes) and its first 12
bytes are the nonce. -/
theorem envelope_wire_format (K : Bytes) (rand : io.Reader) (P nonce : Bytes)
    (hK : K.length = 32) (hr : io.ReadFull rand 12 = .ok nonce) :
    aes.NewCipher K = .ok ⟨16, aes.encrypt K⟩ ∧
    cipher.NewGCM ⟨16, aes.encrypt K⟩ = .ok (customerGCM K) ∧
    ∃ ct tag, (customerGCM K).Seal nonce P [] = ct ++ tag ∧
      ct.length = P.length ∧ tag.length = 16 ∧ nonce.length = 12 ∧
      EncryptWithCustomerKey K rand P = .ok (nonce ++ (ct ++ tag)) ∧
      (nonce ++ (ct ++ tag)).length = P.length + 28 ∧
      (nonce ++ (ct ++ tag)).take 12 = nonce ∧
      (P = [] → (nonce ++ (ct ++ tag)).length = 28) ∧
      (P.length = 11 → (nonce ++ (ct ++ tag)).length = 39) := by
  have hn := io.ReadFull_length rand 12 nonce hr
  refine ⟨aes.NewCipher_ok K hK, newGCM_customer K,
    cipher.counterCrypt (customerGCM K) (cipher.gcmInc32 (cipher.deriveCounter nonce)) P,
    cipher.auth (customerGCM K) (cipher.counterCrypt (customerGCM K)
      (cipher.gcmInc32 (cipher.deriveCounter nonce)) P) []
      ((customerGCM K).cipher.Encrypt (cipher.deriveCounter nonce)),
    rfl, ?_, ?_, hn, ?_, ?_, ?_, ?_, ?_⟩
  · exact cipher.counterCrypt_length _ _ _
  · exact auth_length_customer _ _ _ _
  · exact EncryptWithCustomerKey_eq K rand P nonce hK hr
  · simp only [List.length_append, cipher.counterCrypt_length, auth_length_customer, hn]
    show 12 + (P.length + 16) = P.length + 28
    omega
  · exact List.take_left' hn
  · intro hP
    subst hP
    simp only [List.length_append, cipher.counterCrypt_length, auth_length_customer, hn,
      List.length_nil]
  · intro hP
    simp only [List.length_append, cipher.counterCrypt_length, auth_length_customer, hn, hP]

/-- The wire format at `"hello world"` under `demoKey`: 12 + 11 + 16 = 39 bytes. -/
theorem envelope_wire_format_witness :
    demoKey.length = 32 ∧ io.ReadFull demoRand 12 = .ok (demoRand.data.take 12) ∧
    ∃ ct tag, (customerGCM demoKey).Seal (demoRand.data.take 12) helloWorld [] = ct ++ tag ∧
      ct.length = 11 ∧ tag.length = 16 ∧
      EncryptWithCustomerKey demoKey demoRand helloWorld =
        .ok (demoRand.data.take 12 ++ (ct ++ tag)) ∧
      (demoRand.data.take 12 ++ (ct ++ tag)).length = 39 := by
  obtain ⟨_, _, ct, tag, h1, h2, h3, _, h5, _, _, _, h9⟩ :=
    envelope_wire_format demoKey demoRand helloWorld (demoRand.data.take 12)
      (by decide) (by decide)
  exact ⟨by decide, by decide, ct, tag, h1, h2, h3, h5, h9 (by decide)⟩

/-- C8. Truncation: for every 32-byte key and every input shorter than 12 bytes (the empty
one included), `DecryptWithCustomerKey` fails with the error `ciphertext too short` and
returns no plaintext. That error is raised before the authenticated decryption: it is
not an error `Open` can return. -/
theorem decrypt_truncated (K x : Bytes) (hK : K.length = 32) (hx : x.length < 12) :
    DecryptWithCustomerKey K x = .error "ciphertext too short" ∧
      ∀ nonce ct ad, (customerGCM K).Open nonce ct ad ≠ .error "ciphertext too short" := by
  constructor
  · rw [DecryptWithCustomerKey_eq K x hK, if_pos hx]
  · intro nonce ct ad h
    have := cipher.Open_error _ _ _ _ _ h
    revert this
    decide

/-- Truncation at the empty input and at an 11-byte input. -/
theorem decrypt_truncated_witness :
    DecryptWithCustomerKey demoKey [] = .error "ciphertext too short" ∧
    DecryptWithCustomerKey demoKey helloWorld = .error "ciphertext too short" :=
  ⟨(decrypt_truncated demoKey [] (by decide) (by decide)).1,
    (decrypt_truncated demoKey helloWorld (by decide) (by decide)).1⟩

/-- C4, amended. Read-path mode precedence: once the object has been fetched, the download
path (1) decrypts with the customer key when `metadata["cse"] == "aes-gcm"`, whatever the
namespace of the storage key; (2) otherwise decrypts with the customer key when the
storage key starts with `"cse/"`; (3) otherwise renders the stored bytes unchanged, without
decrypting. -/
theorem download_mode_precedence (w : World) (r : Request) (cfg : Config) (bytes : Bytes)
    (md : Metadata) (hkey : r.Query "key" ≠ "") (hcfg : loadAWSConfig w = .ok cfg)
    (hb : w.getenv "S3_BUCKET" ≠ "")
    (hget : GetObjectBytes w cfg (w.getenv "S3_BUCKET") (r.Query "key") = .ok (bytes, md)) :
    (md.get "cse" = "aes-gcm" →
      downloadHandler w r =
        decryptBranch w.customerKey (w.getenv "S3_BUCKET") (r.Query "key") bytes) ∧
    (md.get "cse" ≠ "aes-gcm" → strings.HasPrefix (r.Query "key") "cse/" = true →
      downloadHandler w r =
        decryptBranch w.customerKey (w.getenv "S3_BUCKET") (r.Query "key") bytes) ∧
    (md.get "cse" ≠ "aes-gcm" → strings.HasPrefix (r.Query "key") "cse/" = false →
      downloadHandler w r = sseDownloadPage (w.getenv "S3_BUCKET") (r.Query "key") bytes) := by
  rw [downloadHandler_eq w r cfg bytes md hkey hcfg hb hget]
  refine ⟨fun h => ?_, fun _ h => ?_, fun h1 h2 => ?_⟩
  · rw [if_pos (Or.inl h)]
  · rw [if_pos (Or.inr h)]
  · rw [if_neg]
    simp [h1, h2]

/-- The three routes at concrete objects: tagged metadata under an `sse/` key, no metadata
under a `cse/` key, and neither. -/
theorem download_mode_precedence_witness :
    downloadHandler (demoWorld (.ok ⟨.ok helloEnvelope, [("cse", "aes-gcm")]⟩))
        (downloadRequest "sse/report.pdf") =
      decryptBranch demoKey "demo-bucket" "sse/report.pdf" helloEnvelope ∧
    downloadHandler (demoWorld (.ok ⟨.ok helloEnvelope, []⟩))
        (downloadRequest "cse/notes.txt") =
      decryptBranch demoKey "demo-bucket" "cse/notes.txt" helloEnvelope ∧
    downloadHandler (demoWorld (.ok ⟨.ok helloWorld, []⟩))
        (downloadRequest "sse/report.pdf") =
      sseDownloadPage "demo-bucket" "sse/report.pdf" helloWorld :=
  ⟨(download_mode_precedence (demoWorld (.ok ⟨.ok helloEnvelope, [("cse", "aes-gcm")]⟩))
      (downloadRequest "sse/report.pdf") ⟨"us-east-1"⟩ helloEnvelope [("cse", "aes-gcm")]
      (by decide) (by decide) (by decide) (by decide)).1 (by decide),
    (download_mode_precedence (demoWorld (.ok ⟨.ok helloEnvelope, []⟩))
      (downloadRequest "cse/notes.txt") ⟨"us-east-1"⟩ helloEnvelope []
      (by decide) (by decide) (by decide) (by decide)).2.1 (by decide) (by decide),
    (download_mode_precedence (demoWorld (.ok ⟨.ok helloWorld, []⟩))
      (downloadRequest "sse/report.pdf") ⟨"us-east-1"⟩ helloWorld []
      (by decide) (by decide) (by decide) (by decide)).2.2 (by decide) (by decide)⟩

/-- C4 as stated fails: an object with metadata `cipher = aes-256-gcm` under the key
`provider/report.pdf`, and an object without metadata under `caller/notes.txt`, are both
rendered as stored, not decrypted. -/
theorem download_mode_precedence_counterexample :
    downloadHandler (demoWorld (.ok ⟨.ok helloEnvelope, [("cipher", "aes-256-gcm")]⟩))
        (downloadRequest "provider/report.pdf") =
      sseDownloadPage "demo-bucket" "provider/report.pdf" helloEnvelope ∧
    downloadHandler (demoWorld (.ok ⟨.ok helloEnvelope, [("cipher", "aes-256-gcm")]⟩))
        (downloadRequest "provider/report.pdf") ≠
      decryptBranch demoKey "demo-bucket" "provider/report.pdf" helloEnvelope ∧
    downloadHandler (demoWorld (.ok ⟨.ok helloEnvelope, []⟩))
        (downloadRequest "caller/notes.txt") =
      sseDownloadPage "demo-bucket" "caller/notes.txt" helloEnvelope ∧
    downloadHandler (demoWorld (.ok ⟨.ok helloEnvelope, []⟩))
        (downloadRequest "caller/notes.txt") ≠
      decryptBranch demoKey "demo-bucket" "caller/notes.txt" helloEnvelope := by
  have h1 : downloadHandler
      (demoWorld (.ok ⟨.ok helloEnvelope, [("cipher", "aes-256-gcm")]⟩))
        (downloadRequest "provider/report.pdf") =
      sseDownloadPage "demo-bucket" "provider/report.pdf" helloEnvelope := by decide
  have h2 : downloadHandler (demoWorld (.ok ⟨.ok helloEnvelope, []⟩))
        (downloadRequest "caller/notes.txt") =
      sseDownloadPage "demo-bucket" "caller/notes.txt" helloEnvelope := by decide
  refine ⟨h1, ?_, h2, ?_⟩
  · rw [h1]; exact (decryptBranch_ne_sseDownloadPage _ _ _ _ _).symm
  · rw [h2]; exact (decryptBranch_ne_sseDownloadPage _ _ _ _ _).symm

/-- C5. Write-then-read consistency: if the upload path, in caller-managed mode, sends
plaintext `P` under file name `filename` to the store as the request `put`, and the store
later returns the bytes of `put` for the key of `put`, with whatever metadata `md` (the
metadata of `put`, or none when the store stripped it), then the download path decrypts
with the customer key and renders exactly `P`. -/
theorem upload_download_consistency (lib : Lib) (w : World) (r : Request) (filename : String)
    (P : Bytes) (put : PutObjectInput) (w' : World) (r' : Request) (cfg' : Config)
    (md : Metadata)
    (hK : w.customerKey.length = 32)
    (hmethod : r.FormValue "method" = "customer")
    (hfile : r.FormFile "file" = .ok ⟨filename, .ok P⟩)
    (hput : put ∈ (uploadHandler lib w r).puts)
    (hK' : w'.customerKey = w.customerKey)
    (hq : r'.Query "key" = put.Key)
    (hcfg' : loadAWSConfig w' = .ok cfg')
    (hb' : w'.getenv "S3_BUCKET" ≠ "")
    (hget : w'.GetObject cfg' ⟨w'.getenv "S3_BUCKET", put.Key⟩ = .ok ⟨.ok put.Body, md⟩) :
    downloadHandler w' r' = customerDownloadPage (w'.getenv "S3_BUCKET") put.Key P ∧
      downloadHandler w' r' =
        decryptBranch w'.customerKey (w'.getenv "S3_BUCKET") put.Key put.Body := by
  obtain ⟨out, henc, rfl⟩ := uploadHandler_customer_put lib w r filename P put hmethod hfile hput
  have hkey : r'.Query "key" ≠ "" := by
    rw [hq]
    simp [UploadRawInput, String.ext_iff, String.data_append]
  have hget' := GetObjectBytes_ok w' cfg' _ _ _ _ hget
  rw [← hq] at hget'
  rw [downloadHandler_eq w' r' cfg' _ md hkey hcfg' hb' hget']
  have hpre : strings.HasPrefix (r'.Query "key") "cse/" = true := by
    rw [hq]; exact strings.HasPrefix_append _ _
  rw [if_pos (Or.inr hpre)]
  unfold decryptBranch
  rw [hK']
  have hd := DecryptWithCustomerKey_Encrypt w.customerKey w.rand P out hK henc
  simp only [UploadRawInput] at hd hq ⊢
  rw [hd, hq]
  exact ⟨rfl, rfl⟩

/-- The end-to-end scenario: `"hello world"` uploaded as `notes.txt` is stored as the 39
bytes `helloEnvelope` under `cse/notes.txt`; a download of that key recovers
`"hello world"`, with the metadata kept and with the metadata stripped. -/
theorem upload_download_consistency_witness :
    (uploadHandler demoLib (demoWorld (.error "NoSuchKey"))
        (uploadRequest "customer" "notes.txt" helloWorld)).puts =
      [UploadRawInput "demo-bucket" "cse/notes.txt" helloEnvelope
        [("cse", "aes-gcm"), ("original", "notes.txt"),
          ("content-ct", "application/octet-stream")]] ∧
    helloEnvelope.length = 39 ∧
    downloadHandler
        (demoWorld (.ok ⟨.ok helloEnvelope, [("cse", "aes-gcm"), ("original", "notes.txt"),
          ("content-ct", "application/octet-stream")]⟩))
        (downloadRequest "cse/notes.txt") =
      customerDownloadPage "demo-bucket" "cse/notes.txt" helloWorld ∧
    downloadHandler (demoWorld (.ok ⟨.ok helloEnvelope, []⟩))
        (downloadRequest "cse/notes.txt") =
      customerDownloadPage "demo-bucket" "cse/notes.txt" helloWorld := by
  have hputs : (uploadHandler demoLib (demoWorld (.error "NoSuchKey"))
        (uploadRequest "customer" "notes.txt" helloWorld)).puts =
      [UploadRawInput "demo-bucket" "cse/notes.txt" helloEnvelope
        [("cse", "aes-gcm"), ("original", "notes.txt"),
          ("content-ct", "application/octet-stream")]] := by
    rw [uploadHandler_customer demoLib (demoWorld (.error "NoSuchKey"))
      (uploadRequest "customer" "notes.txt" helloWorld) ⟨"us-east-1"⟩ "notes.txt" helloWorld
      (demoRand.data.take 12) (by decide) (by decide) (by decide) rfl (by decide)
      (by decide) (by decide) (by decide)]
    have henc := EncryptWithCustomerKey_helloWorld
    rw [EncryptWithCustomerKey_eq demoKey demoRand helloWorld (demoRand.data.take 12)
      (by decide) (by decide)] at henc
    have hbody : demoRand.data.take 12 ++
        (customerGCM demoKey).Seal (demoRand.data.take 12) helloWorld [] = helloEnvelope := by
      injection henc
    have hname : path.Base "notes.txt" = "notes.txt" := by decide
    show [UploadRawInput "demo-bucket" ("cse/" ++ path.Base "notes.txt")
        (demoRand.data.take 12 ++
          (customerGCM demoKey).Seal (demoRand.data.take 12) helloWorld [])
        [("cse", "aes-gcm"), ("original", path.Base "notes.txt"),
          ("content-ct", "application/octet-stream")]] = _
    rw [hbody, hname]
    rfl
  have hmem : UploadRawInput "demo-bucket" "cse/notes.txt" helloEnvelope
        [("cse", "aes-gcm"), ("original", "notes.txt"),
          ("content-ct", "application/octet-stream")] ∈
      (uploadHandler demoLib (demoWorld (.error "NoSuchKey"))
        (uploadRequest "customer" "notes.txt" helloWorld)).puts := by
    rw [hputs]; exact List.mem_singleton.2 rfl
  exact ⟨hputs, by decide,
    (upload_download_consistency demoLib (demoWorld (.error "NoSuchKey"))
      (uploadRequest "customer" "notes.txt" helloWorld) "notes.txt" helloWorld _
      (demoWorld (.ok ⟨.ok helloEnvelope, [("cse", "aes-gcm"), ("original", "notes.txt"),
          ("content-ct", "application/octet-stream")]⟩))
      (downloadRequest "cse/notes.txt") ⟨"us-east-1"⟩ _
      (by decide) (by decide) rfl hmem rfl (by decide) (by decide) (by decide)
      rfl).1,
    (upload_download_consistency demoLib (demoWorld (.error "NoSuchKey"))
      (uploadRequest "customer" "notes.txt" helloWorld) "notes.txt" helloWorld _
      (demoWorld (.ok ⟨.ok helloEnvelope, []⟩))
      (downloadRequest "cse/notes.txt") ⟨"us-east-1"⟩ []
      (by decide) (by decide) rfl hmem rfl (by decide) (by decide) (by decide)
      rfl).1⟩

/-- C6, amended. Caller-managed write contract: a `customer` upload of plaintext `P` under
file name `filename` sends exactly one request to the store; its key is `"cse/"` followed
by the base name of `filename`, its body is the envelope `EncryptWithCustomerKey(P)`, never
the plaintext, and its metadata has the entries `cse = aes-gcm` and `original =` that base
name; no server-side encryption is requested. -/
theorem upload_customer_contract (lib : Lib) (w : World) (r : Request) (cfg : Config)
    (filename : String) (P nonce : Bytes)
    (hm : r.Method = "POST") (hparse : r.ParseMultipartForm = none)
    (hmethod : r.FormValue "method" = "customer")
    (hfile : r.FormFile "file" = .ok ⟨filename, .ok P⟩)
    (hcfg : loadAWSConfig w = .ok cfg) (hb : w.getenv "S3_BUCKET" ≠ "")
    (hK : w.customerKey.length = 32) (hr : io.ReadFull w.rand 12 = .ok nonce) :
    ∃ put, (uploadHandler lib w r).puts = [put] ∧
      put.Bucket = w.getenv "S3_BUCKET" ∧
      put.Key = "cse/" ++ path.Base filename ∧
      EncryptWithCustomerKey w.customerKey w.rand P = .ok put.Body ∧
      put.Body ≠ P ∧
      put.Metadata.get "cse" = "aes-gcm" ∧
      put.Metadata.get "original" = path.Base filename ∧
      put.ServerSideEncryption = "" ∧ put.SSEKMSKeyId = none := by
  refine ⟨_, uploadHandler_customer lib w r cfg filename P nonce hm hparse hmethod hfile hcfg hb
    hK hr, rfl, rfl, ?_, ?_, ?_, ?_, rfl, rfl⟩
  · exact EncryptWithCustomerKey_eq _ _ _ _ hK hr
  · intro h
    have hl := congrArg List.length h
    simp only [UploadRawInput, List.length_append, Seal_length_customer] at hl
    omega
  · simp [UploadRawInput, Metadata.get, List.lookup]
  · simp [UploadRawInput, Metadata.get, List.lookup]

/-- The write contract at `"hello world"` uploaded as `docs/notes.txt`. -/
theorem upload_customer_contract_witness :
    ∃ put, (uploadHandler demoLib (demoWorld (.error "NoSuchKey"))
        (uploadRequest "customer" "docs/notes.txt" helloWorld)).puts = [put] ∧
      put.Key = "cse/" ++ path.Base "docs/notes.txt" ∧
      path.Base "docs/notes.txt" = "notes.txt" ∧
      EncryptWithCustomerKey demoKey demoRand helloWorld = .ok put.Body ∧
      put.Body ≠ helloWorld ∧
      put.Metadata.get "cse" = "aes-gcm" ∧
      put.Metadata.get "original" = path.Base "docs/notes.txt" := by
  obtain ⟨put, h1, _, h3, h4, h5, h6, h7, _⟩ :=
    upload_customer_contract demoLib (demoWorld (.error "NoSuchKey"))
      (uploadRequest "customer" "docs/notes.txt" helloWorld) ⟨"us-east-1"⟩ "docs/notes.txt"
      helloWorld (demoRand.data.take 12) (by decide) (by decide) (by decide) rfl (by decide)
      (by decide) (by decide) (by decide)
  exact ⟨put, h1, h3, by decide, h4, h5, h6, h7⟩

/-- C6 as stated fails: `"hello world"` uploaded as `notes.txt` in caller-managed mode goes
to the key `cse/notes.txt`, not `caller/notes.txt`, and its metadata has no entry `cipher`
and no entry `original_name`. -/
theorem upload_customer_contract_counterexample :
    (uploadHandler demoLib (demoWorld (.error "NoSuchKey"))
        (uploadRequest "customer" "notes.txt" helloWorld)).puts.map
      (fun put => (put.Key, put.Metadata)) =
      [("cse/notes.txt", [("cse", "aes-gcm"), ("original", "notes.txt"),
        ("content-ct", "application/octet-stream")])] ∧
    ("cse/notes.txt" : String) ≠ "caller/notes.txt" ∧
    Metadata.get [("cse", "aes-gcm"), ("original", "notes.txt"),
        ("content-ct", "application/octet-stream")] "cipher" ≠ "aes-256-gcm" ∧
    Metadata.get [("cse", "aes-gcm"), ("original", "notes.txt"),
        ("content-ct", "application/octet-stream")] "original_name" ≠ "notes.txt" := by
  refine ⟨?_, by decide, by decide, by decide⟩
  decide

/-- C9, amended. Name sanitization: every request the upload path sends to the store has
as key the namespace of the mode (`"sse/"` or `"cse/"`) followed by `path.Base` of the
uploaded file name and nothing else. That base name is never empty. It contains a `/` only
when the file name consists of slashes alone, and it is then `"/"`. For any other non-empty
file name it is the last slash-free element of the name, trailing slashes dropped; that
element can be `".."`. -/
theorem upload_name_sanitization (lib : Lib) (w : World) (r : Request) (file : FormFile)
    (put : PutObjectInput) (hfile : r.FormFile "file" = .ok file)
    (hput : put ∈ (uploadHandler lib w r).puts) :
    (put.Key = "sse/" ++ path.Base file.Filename ∨
      put.Key = "cse/" ++ path.Base file.Filename) ∧
    path.Base file.Filename ≠ "" ∧
    ('/' ∈ (path.Base file.Filename).data →
      path.Base file.Filename = "/" ∧ file.Filename ≠ "" ∧
        ∀ c ∈ file.Filename.data, c = '/') ∧
    (file.Filename ≠ "" → (∃ c ∈ file.Filename.data, c ≠ '/') →
      '/' ∉ (path.Base file.Filename).data ∧
      ∃ pre, file.Filename.data.rdropWhile (· = '/') = pre ++ (path.Base file.Filename).data ∧
        (pre = [] ∨ ∃ q, pre = q ++ ['/'])) := by
  refine ⟨uploadHandler_key lib w r file hfile put hput, ?_, ?_, ?_⟩
  · intro h
    rcases path.Base_data file.Filename with ⟨h1, _⟩ | ⟨h1, _⟩ | ⟨h1, _⟩ <;>
      simp [h] at h1
  · intro h
    rcases path.Base_data file.Filename with ⟨h1, _⟩ | ⟨h1, h2, h3⟩ | ⟨_, h1, _⟩
    · rw [h1] at h; simp at h
    · exact ⟨String.ext h1, h2, h3⟩
    · exact absurd h h1
  · intro hne ⟨c, hc, hcne⟩
    rcases path.Base_data file.Filename with ⟨_, h2⟩ | ⟨_, _, h3⟩ | ⟨_, h1, h2⟩
    · exact absurd h2 hne
    · exact absurd (h3 c hc) hcne
    · exact ⟨h1, h2⟩

/-- Sanitization at the file name `../../etc/passwd`: the key is `cse/passwd`. -/
theorem upload_name_sanitization_witness :
    (uploadHandler demoLib (demoWorld (.error "NoSuchKey"))
        (uploadRequest "customer" "../../etc/passwd" helloWorld)).puts.map
      (fun put => put.Key) = ["cse/passwd"] ∧
    path.Base "../../etc/passwd" = "passwd" ∧
    ∀ put ∈ (uploadHandler demoLib (demoWorld (.error "NoSuchKey"))
        (uploadRequest "customer" "../../etc/passwd" helloWorld)).puts,
      (put.Key = "sse/" ++ path.Base "../../etc/passwd" ∨
        put.Key = "cse/" ++ path.Base "../../etc/passwd") ∧
      '/' ∉ (path.Base "../../etc/passwd").data :=
  ⟨by decide, by decide, fun put hput =>
    ⟨(upload_name_sanitization demoLib (demoWorld (.error "NoSuchKey"))
        (uploadRequest "customer" "../../etc/passwd" helloWorld)
        ⟨"../../etc/passwd", .ok helloWorld⟩ put rfl hput).1,
      by decide⟩⟩

/-- C9 as stated fails: the base name of the file name `..` is `..`, stored under the key
`cse/..`, and the base name of `/` is `/`, stored under the key `cse//`. -/
theorem upload_name_sanitization_counterexample :
    path.Base ".." = ".." ∧
    (uploadHandler demoLib (demoWorld (.error "NoSuchKey"))
        (uploadRequest "customer" ".." helloWorld)).puts.map (fun put => put.Key) =
      ["cse/.."] ∧
    path.Base "/" = "/" ∧
    (uploadHandler demoLib (demoWorld (.error "NoSuchKey"))
        (uploadRequest "customer" "/" helloWorld)).puts.map (fun put => put.Key) =
      ["cse//"] := by
  refine ⟨by decide, by decide, by decide, by decide⟩

/-- C10, amended. Decryption failure: in every download that reaches the decryption and in
which `DecryptWithCustomerKey` fails, the response is the HTTP error 500 with body
`decrypt failed: ` followed by the text of the underlying error; no page and no plaintext
is rendered. Under a 32-byte key that text is `ciphertext too short` for an input shorter
than 12 bytes and `cipher: message authentication failed` for every longer input, whatever
the cause (wrong key or corrupted bytes). -/
theorem download_decrypt_failure (w : World) (r : Request) (cfg : Config) (bytes : Bytes)
    (md : Metadata) (err : String)
    (hkey : r.Query "key" ≠ "") (hcfg : loadAWSConfig w = .ok cfg)
    (hb : w.getenv "S3_BUCKET" ≠ "")
    (hget : GetObjectBytes w cfg (w.getenv "S3_BUCKET") (r.Query "key") = .ok (bytes, md))
    (hroute : md.get "cse" = "aes-gcm" ∨ strings.HasPrefix (r.Query "key") "cse/" = true)
    (hK : w.customerKey.length = 32)
    (hfail : DecryptWithCustomerKey w.customerKey bytes = .error err) :
    downloadHandler w r = .Error ("decrypt failed: " ++ err) StatusInternalServerError ∧
    (bytes.length < 12 ∧ err = "ciphertext too short" ∨
      12 ≤ bytes.length ∧ err = cipher.errOpen) := by
  constructor
  · rw [downloadHandler_eq w r cfg bytes md hkey hcfg hb hget, if_pos hroute]
    unfold decryptBranch
    rw [hfail]
  · rw [DecryptWithCustomerKey_eq _ _ hK] at hfail
    by_cases hlen : bytes.length < 12
    · left
      rw [if_pos hlen] at hfail
      cases hfail
      exact ⟨hlen, rfl⟩
    · right
      rw [if_neg hlen] at hfail
      exact ⟨by omega, cipher.Open_error _ _ _ _ _ hfail⟩

/-- The failure response for a stored object of 11 bytes. -/
theorem download_decrypt_failure_witness :
    DecryptWithCustomerKey demoKey helloWorld = .error "ciphertext too short" ∧
    downloadHandler (demoWorld (.ok ⟨.ok helloWorld, []⟩)) (downloadRequest "cse/notes.txt") =
      .Error ("decrypt failed: " ++ "ciphertext too short") StatusInternalServerError :=
  ⟨by decide,
    (download_decrypt_failure (demoWorld (.ok ⟨.ok helloWorld, []⟩))
      (downloadRequest "cse/notes.txt") ⟨"us-east-1"⟩ helloWorld [] "ciphertext too short"
      (by decide) (by decide) (by decide) (by decide) (by decide) (by decide) (by decide)).1⟩

/-- C10 as stated fails: a download of a truncated object and a download of an object that
fails authentication both fail, with different bodies, and neither body is the generic
`cannot decrypt object`. -/
theorem download_decrypt_failure_counterexample :
    downloadHandler (demoWorld (.ok ⟨.ok [], [("cse", "aes-gcm")]⟩))
        (downloadRequest "cse/notes.txt") =
      .Error "decrypt failed: ciphertext too short" 500 ∧
    downloadHandler (demoWorld (.ok ⟨.ok (List.replicate 12 0), [("cse", "aes-gcm")]⟩))
        (downloadRequest "cse/notes.txt") =
      .Error "decrypt failed: cipher: message authentication failed" 500 ∧
    Response.Error "decrypt failed: ciphertext too short" 500 ≠
      .Error "decrypt failed: cipher: message authentication failed" 500 ∧
    Response.Error "decrypt failed: ciphertext too short" 500 ≠
      .Error "cannot decrypt object" 500 ∧
    Response.Error "decrypt failed: cipher: message authentication failed" 500 ≠
      .Error "cannot decrypt object" 500 := by
  refine ⟨by decide, by decide, by decide, by decide, by decide⟩
